import Mathlib

/-!
# Verification of the open-mcr answer scoring engine (`src/scoring.py`)

Shallow embedding of the scoring module.  Python strings are modelled as
`List Char` (Python indexes and iterates strings by code point, so a list of
characters is the faithful model); Python floats carrying exact small values
(question weights, scores) are modelled as exact rationals `ℚ`, and the
non-finite float produced by a zero denominator is modelled by an explicit
sentinel constructor.  Python exceptions are modelled with `Except`: an
uncaught exception is an `Except.error` carrying a constructor naming the
Python exception that is raised.
-/

set_option autoImplicit false

set_option allowUnsafeReducibility true

attribute [semireducible] Rat.mul Rat.add Rat.inv Rat.sub

deriving instance DecidableEq for Except

namespace OpenMCR

/-- Model of a Python `str`: a list of its characters. -/
abbrev Str := List Char

/-- Python `s.strip("[]")`: remove every leading and trailing character that
is `'['` or `']'`. -/
def stripBr (s : Str) : Str :=
  ((s.dropWhile (fun c => c == '[' || c == ']')).reverse.dropWhile
    (fun c => c == '[' || c == ']')).reverse

/-- Python `s.split("|")`: split on pipes; the empty string yields `[""]`,
and consecutive pipes yield empty pieces, exactly as `str.split` does with an
explicit separator. -/
def pySplitPipe : Str → List Str
  | [] => [[]]
  | c :: rest =>
    let r := pySplitPipe rest
    if c = '|' then [] :: r
    else
      match r with
      | [] => [[c]]
      | piece :: pieces => (c :: piece) :: pieces

/-- Result of `_extract_with_multiple`: either the original string, or the
parsed set of pipe-separated alternatives.  Python represents the second case
as a `set` of strings; the constructor keeps the pieces as a list, and set
cardinality is taken through `List.dedup`. -/
inductive Extracted where
  | str (s : Str)
  | strSet (xs : List Str)
  deriving DecidableEq, Repr

/-- `_extract_with_multiple` (scoring.py:131-136): if the string starts with
`[` and ends with `]`, strip the brackets and split on `|` into a set;
otherwise return the string unchanged. -/
def extract_with_multiple (s : Str) : Extracted :=
  if s.head? = some '[' ∧ s.getLast? = some ']' then
    .strSet (pySplitPipe (stripBr s))
  else .str s

/-- A graded value: a numeric credit, or `np.nan` (the not-applicable
sentinel used for canceled and unrewarded partial-credit questions). -/
inductive Grade where
  | val (q : ℚ)
  | nan
  deriving DecidableEq, Repr

/-- Python exceptions that `grade_answer` can raise: the `TypeError` from
building `{answer_set}` when `answer_set` is itself a `set` (sets are
unhashable), and the explicit `NotImplementedError`s. -/
inductive GradeErr where
  | typeError
  | notImplemented
  deriving DecidableEq, Repr

/-- `grade_answer` (scoring.py:137-166), translated branch by branch:
  * `correct` is first passed through `_extract_with_multiple`;
  * `correct == "*"` (only possible for the string case) gives `np.nan`;
  * a string of length 1 — or a parsed set of cardinality 1, since Python's
    `len` applies to both and the `len == 1` test precedes the
    `isinstance(set)` test — gives `int(answer == correct) * score`;
    against a set this comparison is always `False`, hence credit `0`;
  * against a parsed set of cardinality ≥ 2, the answer is itself parsed:
    if it parses to a set the code evaluates `{answer_set}` and raises
    `TypeError` (a `set` is unhashable); otherwise the answer string is
    intersected with the correct set — Python's `set.intersection` iterates
    the string character by character, so credit is `score` exactly when
    some alternative equals a one-character string occurring in the answer;
  * a string starting with `*`: every `*` is removed (`str.replace`); a
    single remaining character gives `score` on exact match and `np.nan`
    otherwise; a remaining bracketed form gives `score` when the answer is
    in the set of characters of the bracket-stripped interior and `np.nan`
    otherwise; anything else raises `NotImplementedError`;
  * any other string raises `NotImplementedError`. -/
def grade_answer (answer correct : Str) (score : ℚ) : Except GradeErr Grade :=
  match extract_with_multiple correct with
  | .strSet cs =>
    if cs.dedup.length = 1 then .ok (.val 0)
    else
      match extract_with_multiple answer with
      | .strSet _ => .error .typeError
      | .str a =>
        .ok (.val (if cs.any (fun x => a.any (fun ch => x == [ch])) then score else 0))
  | .str c =>
    if c = ['*'] then .ok .nan
    else if c.length = 1 then .ok (.val (if answer = c then score else 0))
    else if c.head? = some '*' then
      let c2 := c.filter (fun x => !(x == '*'))
      if c2.length = 1 then
        if answer = c2 then .ok (.val score) else .ok .nan
      else if c2.head? = some '[' ∧ c2.getLast? = some ']' then
        if (stripBr c2).any (fun ch => answer == [ch]) then .ok (.val score)
        else .ok .nan
      else .error .notImplemented
    else .error .notImplemented

/-- Python exceptions that `establish_key_dict` / `score_results` can raise
(apart from grading errors): `IndexError` from out-of-range indexing,
`StopIteration` escaping an unprotected `list_utils.find_index`, the
`ValueError` raised by `establish_key_dict` when the key header has no `Q1`
column, the `ValueError` from unpacking `zip(*[])` when a key variant holds
no (answer, weight) pairs, the `ValueError` from `max([])` when the key
dictionary is empty, and the numpy `IndexError` when the boolean `nan` mask
is shorter than the weight array. -/
inductive ScoreErr where
  | indexError
  | stopIteration
  | invalidKeyFormat
  | unpackError
  | maxEmpty
  | maskMismatch
  | gradeError (e : GradeErr)
  deriving DecidableEq, Repr

/-- The sheet abstraction used by the scoring module: a data matrix whose
first row is the header, a per-key-row list of question weights, and the
declared field columns.  Modelled from the spec: `data_exporting.OutputSheet`
is not under `src/`; the spec describes it as an ordered table holding named
field columns plus per-row answer columns, with `scores` the caller-supplied
parallel weight rows for an answer-key sheet. -/
structure OutputSheet where
  data : List (List Str)
  scores : List (List ℚ)
  field_columns : List Str
  deriving DecidableEq, Repr

/-- A key dictionary: insertion-ordered (form code, (spec, weight) pairs)
entries.  Python `dict` semantics are recovered by `lookupLast` (a later
binding of the same key overwrites an earlier one) and `hasKey`. -/
abbrev KeyDict := List (Str × List (Str × ℚ))

/-- Python `dict` lookup over the insertion-ordered entry list: the value of
the LAST entry whose key matches (later duplicate keys overwrite earlier
ones in a dict comprehension). -/
def lookupLast {α : Type} (d : List (Str × α)) (k : Str) : Option α :=
  d.foldl (fun acc p => if p.1 = k then some p.2 else acc) none

/-- Python `k in dict`. -/
def hasKey {α : Type} (d : List (Str × α)) (k : Str) : Bool :=
  d.any (fun p => p.1 == k)

/-- `list_utils.find_index` — modelled from the spec: the module is not under
`src/`; per the spec it locates a column by its declared name, raising
`StopIteration` when the name is absent (callers catch it or let it
escape).  The `Option` result is `none` exactly when `StopIteration` would
be raised. -/
def find_index (xs : List Str) (x : Str) : Option Nat :=
  xs.findIdx? (fun c => c == x)

/-- `get_key_form_code` (scoring.py:13-25), with the header and the key row
`keys[index + 1]` passed directly: if the form-code column name is absent
from the header the `StopIteration` of `find_index` is caught and the form
code is the wildcard `"*"`; otherwise the row is indexed at that column
(an out-of-range index is an uncaught `IndexError`). -/
def get_key_form_code (fcName : Str) (header row : List Str) : Except ScoreErr Str :=
  match find_index header fcName with
  | none => .ok ['*']
  | some i =>
    match row[i]? with
    | some v => .ok v
    | none => .error .indexError

/-- One entry of the key dictionary comprehension (scoring.py:50-53): the
computed form code paired with `list(zip(key[answers_start_index:], w))`. -/
def keyEntry (fcName : Str) (header : List Str) (start : Nat) (row : List Str)
    (w : List ℚ) : Except ScoreErr (Str × List (Str × ℚ)) :=
  match get_key_form_code fcName header row with
  | .error e => .error e
  | .ok fc => .ok (fc, (row.drop start).zip w)

/-- The dict comprehension of `establish_key_dict`, iterating the key rows
in order with `answer_keys.scores[index]` as the parallel weight row; an
exhausted `scores` list is the `IndexError` of `scores[index]`. -/
def buildEntries (fcName : Str) (header : List Str) (start : Nat) :
    List (List Str) → List (List ℚ) → Except ScoreErr KeyDict
  | [], _ => .ok []
  | _ :: _, [] => .error .indexError
  | row :: rows, w :: ws =>
    match keyEntry fcName header start row w with
    | .error e => .error e
    | .ok e =>
      match buildEntries fcName header start rows ws with
      | .error e' => .error e'
      | .ok rest => .ok (e :: rest)

/-- `establish_key_dict` (scoring.py:28-54): find the `Q1` column in the
header (its absence is the `ValueError` complaining about the key matrix),
then build the dictionary mapping each key row's form code to the zip of
its answers from the `Q1` column onward with its weight row. -/
def establish_key_dict (fcName : Str) (answer_keys : OutputSheet) :
    Except ScoreErr KeyDict :=
  match answer_keys.data with
  | [] => .error .indexError
  | header :: rows =>
    match find_index header ("Q1".toList) with
    | none => .error .invalidKeyFormat
    | some start => buildEntries fcName header start rows answer_keys.scores

/-- Sequential effectful map: apply `f` to each element in order, stopping
at (and propagating) the first error — the behavior of a Python loop or
comprehension in which an iteration may raise. -/
def mapE {ε α β : Type} (f : α → Except ε β) : List α → Except ε (List β)
  | [] => .ok []
  | a :: l =>
    match f a with
    | .error e => .error e
    | .ok b =>
      match mapE f l with
      | .error e => .error e
      | .ok bs => .ok (b :: bs)

/-- `float(g)` contribution of a graded value inside `np.nansum`: `nan`
counts as zero. -/
def gradeToQ : Grade → ℚ
  | .val q => q
  | .nan => 0

/-- Is the graded value the `np.nan` sentinel? (`np.isnan`). -/
def Grade.isNan : Grade → Bool
  | .nan => true
  | _ => false

/-- `np.nansum(scored_answers)` (scoring.py:104): sum of the graded values
treating `nan` as zero. -/
def nansum (gs : List Grade) : ℚ :=
  (gs.map gradeToQ).sum

/-- `np.sum(key_scores[~nan_mask])` (scoring.py:102-103): the sum of the
weights at positions where the graded value is not `nan`. -/
def maskedWeightSum (ws : List ℚ) (gs : List Grade) : ℚ :=
  (((ws.zip gs).filter (fun p => !(p.2.isNan))).map Prod.fst).sum

/-- Python's banker's rounding of a rational to the nearest integer:
round half to even (the semantics of `round` on an exactly-representable
value). -/
def rndHalfEven (q : ℚ) : ℤ :=
  if q - q.floor < 1/2 then q.floor
  else if (1:ℚ)/2 < q - q.floor then q.floor + 1
  else if q.floor % 2 = 0 then q.floor else q.floor + 1

/-- Python `round(q, 2)` on an exact value: banker's rounding at the second
decimal digit. -/
def roundTo2 (q : ℚ) : ℚ :=
  ((rndHalfEven (q * 100) : ℤ) : ℚ) / 100

/-- A value written into the `score` / `points` virtual fields of the output
sheet. `keyNotFound` models `data_exporting.KEY_NOT_FOUND_MESSAGE`;
`nanVal` models the non-finite float (`0.0/0.0` is `nan`) that numpy
produces, without raising, when the masked weight sum is zero. -/
inductive FieldVal where
  | num (q : ℚ)
  | nanVal
  | keyNotFound
  deriving DecidableEq, Repr

/-- One row of the scored output sheet: the identifying fields
`zip(results.field_columns, exam[:answers_start_index])`, the two virtual
fields, and the per-question graded values (`scored_answers`).  Modelled
from the spec for the missing `OutputSheet.add`: a row is appended with its
field values and its stringified graded answers. -/
structure ScoredRow where
  idFields : List (Str × Str)
  scoreField : FieldVal
  pointsField : FieldVal
  gradedAnswers : List Grade
  deriving DecidableEq, Repr

/-- The body of the per-exam loop of `score_results` (scoring.py:74-112):
copy the identifying fields, read the form code (`IndexError` when the row
is too short), resolve the key — the wildcard entry when present, else the
row's own form code, a failed lookup (`KeyError`) flagging the row with the
key-not-found sentinel and no graded answers — unpack the (spec, weight)
pairs (`zip(*[])` on an empty variant is an uncaught `ValueError`), grade
each question pairwise (a `grade_answer` exception aborts the run), build
the nan mask (numpy raises when it is shorter than the weight array, i.e.
when the exam has fewer answer cells than the key), and aggregate:
`score = nansum / masked weight sum` (`nan` when the denominator is zero),
`SCORE = round(score*100, 2)` and `POINTS = round(sum(weights)*score, 2)`. -/
def scoreRow (fcIdx startIdx : Nat) (field_columns : List Str)
    (keys_scores : KeyDict) (exam : List Str) : Except ScoreErr ScoredRow :=
  let idFields := field_columns.zip (exam.take startIdx)
  match exam[fcIdx]? with
  | none => .error .indexError
  | some form_code =>
    match
      (if hasKey keys_scores ['*'] then lookupLast keys_scores ['*']
       else lookupLast keys_scores form_code) with
    | none => .ok ⟨idFields, .keyNotFound, .keyNotFound, []⟩
    | some pairs =>
      if pairs = [] then .error .unpackError
      else
        let key := pairs.map Prod.fst
        let scores := pairs.map Prod.snd
        let scores := if scores = [] then List.replicate key.length (1:ℚ) else scores
        match
          mapE (fun t => grade_answer t.1 t.2.1 t.2.2)
            ((exam.drop startIdx).zip (key.zip scores)) with
        | .error e => .error (.gradeError e)
        | .ok graded =>
          if graded.length ≠ scores.length then .error .maskMismatch
          else
            let max_score := maskedWeightSum scores graded
            let raw_score := nansum graded
            let total := scores.sum
            if max_score = 0 then .ok ⟨idFields, .nanVal, .nanVal, graded⟩
            else
              let sc := raw_score / max_score
              .ok ⟨idFields, .num (roundTo2 (sc * 100)),
                   .num (roundTo2 (total * sc)), graded⟩

/-- `score_results` (scoring.py:57-114): build the key dictionary, locate
the form-code column and the `Q1` column of the response header (an
uncaught `StopIteration` if absent; `answers_start_index` is relative to
the cells after the form-code column), compute
`num_questions = max(len(v) for v in dict.values())` (the `ValueError` of
`max([])` when the dictionary is empty), then score each response row in
order; an exception inside the loop aborts the whole run. -/
def score_results (fcName : Str) (results answer_keys : OutputSheet) :
    Except ScoreErr (List ScoredRow) :=
  match establish_key_dict fcName answer_keys with
  | .error e => .error e
  | .ok keys_scores =>
    match results.data with
    | [] => .error .indexError
    | header :: exams =>
      match find_index header fcName with
      | none => .error .stopIteration
      | some form_code_index =>
        match find_index (header.drop (form_code_index + 1)) ("Q1".toList) with
        | none => .error .stopIteration
        | some rel =>
          let answers_start_index := rel + form_code_index + 1
          if keys_scores = [] then .error .maxEmpty
          else
            mapE
              (scoreRow form_code_index answers_start_index
                results.field_columns keys_scores)
              exams

/-! ## Concrete sheets used by the end-to-end scenario theorems -/

/-- Form-code column name used in the concrete scenarios (the actual literal
lives in the `data_exporting` module; only its presence in both headers
matters). -/
def fcn : Str := "form".toList

/-- Scenario A key sheet: `form=FORM1, Q1=A, Q2=[B|C], Q3=*`, weights
`[1,1,1]`. -/
def keySheetA : OutputSheet :=
  { data := [[ "form".toList, "Q1".toList, "Q2".toList, "Q3".toList],
             [ "FORM1".toList, "A".toList, "[B|C]".toList, "*".toList]],
    scores := [[1, 1, 1]],
    field_columns := [ "form".toList] }

/-- Scenario A response sheet: one exam `form=FORM1, Q1=A, Q2=C, Q3=D`. -/
def respSheetA : OutputSheet :=
  { data := [[ "name".toList, "form".toList, "Q1".toList, "Q2".toList, "Q3".toList],
             [ "Bob".toList, "FORM1".toList, "A".toList, "C".toList, "D".toList]],
    scores := [],
    field_columns := [ "name".toList, "form".toList] }

/-- The row scenario A actually produces. -/
def scoredRowA : ScoredRow :=
  ⟨[( "name".toList, "Bob".toList), ( "form".toList, "FORM1".toList)],
   .num 100, .num 3, [.val 1, .val 1, .nan]⟩

/-- Key sheet with one variant and an EMPTY weight row. -/
def keySheetEmptyW : OutputSheet :=
  { data := [[ "form".toList, "Q1".toList], [ "FORM1".toList, "A".toList]],
    scores := [[]],
    field_columns := [ "form".toList] }

/-- Response sheet with one exam whose form code matches `keySheetEmptyW`. -/
def respSheetEmptyW : OutputSheet :=
  { data := [[ "form".toList, "Q1".toList], [ "FORM1".toList, "A".toList]],
    scores := [],
    field_columns := [ "form".toList] }

/-- A two-question key variant: `Q1=A` worth 1 point, `Q2=*` (canceled)
worth 1 point. -/
def c5pairs : List (Str × ℚ) := [( "A".toList, 1), ( "*".toList, 1)]

/-- Key dictionary holding only `c5pairs` under form code `FORM1`. -/
def c5ks : KeyDict := [( "FORM1".toList, c5pairs)]

/-- An exam row for `c5ks`: form code, then answers `A`, `X`. -/
def c5exam : List Str := [ "FORM1".toList, "A".toList, "X".toList]

/-- The row `c5exam` is scored to. -/
def c5row : ScoredRow :=
  ⟨[( "form".toList, "FORM1".toList)], .num 100, .num 2, [.val 1, .nan]⟩

/-- A key dictionary whose only variant cancels both questions. -/
def c8ks : KeyDict := [( "FORM1".toList, [(['*'], (1:ℚ)), (['*'], (2:ℚ))])]

/-- A key dictionary with a `FORM1` entry and a wildcard entry. -/
def c9ks : KeyDict :=
  [( "FORM1".toList, [( "A".toList, (1:ℚ))]), (['*'], [( "B".toList, (2:ℚ))])]

/-- The dictionary built from a key table holding two `FORM1` rows: the
second binding overwrites the first. -/
def c10d : KeyDict :=
  [( "FORM1".toList, [( "A".toList, (1:ℚ))]),
   ( "FORM1".toList, [( "B".toList, (1:ℚ))])]

end OpenMCR

namespace OpenMCR

/-! ## Helper lemmas -/

/-- Grading any answer against the bare canceled specification `"*"` is the
`np.nan` sentinel. -/
theorem grade_answer_star (a : Str) (w : ℚ) : grade_answer a ['*'] w = .ok .nan := rfl

theorem mapE_nil {ε α β : Type} (f : α → Except ε β) : mapE f [] = .ok [] := rfl

theorem mapE_cons {ε α β : Type} (f : α → Except ε β) (a : α) (l : List α) :
    mapE f (a :: l) =
      match f a with
      | Except.error e => Except.error e
      | Except.ok b =>
        match mapE f l with
        | Except.error e => Except.error e
        | Except.ok bs => Except.ok (b :: bs) := rfl

theorem mapE_append {ε α β : Type} (f : α → Except ε β) (l₁ l₂ : List α) :
    mapE f (l₁ ++ l₂) =
      match mapE f l₁ with
      | Except.error e => Except.error e
      | Except.ok b₁ =>
        match mapE f l₂ with
        | Except.error e => Except.error e
        | Except.ok b₂ => Except.ok (b₁ ++ b₂) := by
  induction l₁ with
  | nil =>
    simp only [List.nil_append, mapE]
    cases mapE f l₂ with
    | error e => rfl
    | ok b => rfl
  | cons a l ih =>
    cases hfa : f a with
    | error e =>
      simp only [List.cons_append, mapE, hfa]
    | ok b =>
      simp only [List.cons_append, mapE, hfa, List.append_eq]
      rw [ih]
      cases mapE f l with
      | error e => rfl
      | ok bs =>
        cases mapE f l₂ with
        | error e => rfl
        | ok b₂ => rfl

theorem mapE_ok_length {ε α β : Type} (f : α → Except ε β) {l : List α}
    {out : List β} (h : mapE f l = .ok out) : out.length = l.length := by
  induction l generalizing out with
  | nil =>
    simp only [mapE] at h
    cases h
    rfl
  | cons a l ih =>
    simp only [mapE] at h
    cases hfa : f a with
    | error e => rw [hfa] at h; cases h
    | ok b =>
      rw [hfa] at h
      cases hrec : mapE f l with
      | error e => rw [hrec] at h; cases h
      | ok bs =>
        rw [hrec] at h
        cases h
        simp [ih hrec]

/-- Unzipping a pair list and zipping it back is the identity. -/
theorem zip_fst_snd {α β : Type} (l : List (α × β)) :
    (l.map Prod.fst).zip (l.map Prod.snd) = l := by
  rw [List.zip_map']
  simp

/-- Grading an all-canceled key variant yields `nan` for every question. -/
theorem mapE_all_star (ps : List (Str × ℚ)) (xs : List Str)
    (hall : ∀ p ∈ ps, p.1 = ['*']) (hlen : ps.length ≤ xs.length) :
    mapE (fun t => grade_answer t.1 t.2.1 t.2.2)
      (xs.zip ((ps.map Prod.fst).zip (ps.map Prod.snd))) =
      .ok (List.replicate ps.length Grade.nan) := by
  induction ps generalizing xs with
  | nil => simp [mapE]
  | cons p ps ih =>
    cases xs with
    | nil => simp at hlen
    | cons x xs =>
      have hp1 : p.1 = ['*'] := hall p (by simp)
      have hrec := ih xs (fun q hq => hall q (List.mem_cons_of_mem _ hq)) (by simpa using hlen)
      simp only [List.map_cons, List.zip_cons_cons, mapE, hp1, grade_answer_star,
        List.length_cons, List.replicate_succ]
      simp only [List.zip] at hrec
      rw [hrec]

/-- The numerator-side weight sum is zero when every graded value is the
`nan` sentinel. -/
theorem maskedWeightSum_all_nan (ws : List ℚ) (gs : List Grade)
    (h : ∀ g ∈ gs, g = Grade.nan) : maskedWeightSum ws gs = 0 := by
  unfold maskedWeightSum
  have hf : (ws.zip gs).filter (fun p => !(p.2.isNan)) = [] := by
    rw [List.filter_eq_nil_iff]
    intro p hp
    have hmem := List.of_mem_zip hp
    rw [h p.2 hmem.2]
    simp [Grade.isNan]
  rw [hf]
  simp

/-- Appending a `nan`-graded question leaves the non-nan weight sum
unchanged. -/
theorem maskedWeightSum_append_nan (ws : List ℚ) (gs : List Grade) (w : ℚ)
    (h : ws.length = gs.length) :
    maskedWeightSum (ws ++ [w]) (gs ++ [Grade.nan]) = maskedWeightSum ws gs := by
  unfold maskedWeightSum
  rw [List.zip_append h]
  simp [Grade.isNan]

/-- Appending a `nan`-graded question leaves the credit sum unchanged. -/
theorem nansum_append_nan (gs : List Grade) :
    nansum (gs ++ [Grade.nan]) = nansum gs := by
  simp [nansum, gradeToQ]

/-! ## Claim theorems -/

/-- C1 counterexample: on the scenario-A inputs (key `A, [B|C], *` with
weights `[1,1,1]`, response `A, C, D`) the code produces a score field of
100 but a points field of 3, not the claimed 2: the points computation
multiplies the score fraction by `np.sum(key_scores)`, the sum of ALL
weights, which includes the weight of the canceled third question. -/
theorem C1_scenario_a_counterexample :
    score_results fcn respSheetA keySheetA = .ok [scoredRowA] ∧
    scoredRowA.pointsField ≠ FieldVal.num 2 := by
  constructor
  · decide
  · decide

/-- C1 (amended): scoring the scenario-A response produces a score field of
100.00 and a points field of 3.00 — the canceled third question is graded
not-applicable and excluded from both the numerator and the denominator of
the percentage, but its weight still participates in the all-weights sum
that the points field multiplies by the score fraction. -/
theorem C1_scenario_a_amended :
    score_results fcn respSheetA keySheetA =
      .ok [⟨[( "name".toList, "Bob".toList), ( "form".toList, "FORM1".toList)],
            .num (roundTo2 (100 * (2 / 2))), .num (roundTo2 (3 * (2 / 2))),
            [.val 1, .val 1, .nan]⟩] := by
  decide

/-- C2 is a code bug: for a multi-choice set specification the code is
meant to treat the submitted answer's own bracketed set and intersect it
with the correct set, but the guard `if isinstance(answer_set, set)` wraps
a parsed set into `{answer_set}`, which raises `TypeError` (a `set` is not
hashable), so `correct=[A|C]` with `answer=[A|B]` crashes instead of
earning the weight; and a bracketed single-alternative specification like
`[A]` parses to a one-element set that the earlier `len(correct) == 1`
branch captures, comparing the answer STRING with the SET — always false —
so it earns 0 even for its member. -/
theorem C2_set_answer_divergence :
    grade_answer ( "[A|B]".toList) ( "[A|C]".toList) 1 = .error .typeError ∧
    grade_answer ( "A".toList) ( "[A]".toList) 1 = .ok (.val 0) := by
  constructor
  · decide
  · decide

/-- C3 is a code bug: a key variant whose weight row is empty is stored as
an empty (spec, weight) pair list, and scoring a response row against it
evaluates `key, scores = zip(*[])`, which raises an uncaught `ValueError`
("not enough values to unpack") instead of defaulting every weight to 1 —
the intended default `scores = [1.] * len(key)` sits on a branch that can
never be reached, because a successful unpack always yields a non-empty
`scores` tuple. -/
theorem C3_empty_weights_crash :
    score_results fcn respSheetEmptyW keySheetEmptyW = .error .unpackError := by
  decide

/-- C4: for a specification that starts with the `*` marker, once every `*`
is stripped (`str.replace`), a single remaining character earns the weight
on exact match and the `nan` not-applicable sentinel — never 0 — otherwise,
and a remaining bracketed form earns the weight exactly when the answer is
one of the characters of the bracket-stripped interior, `nan` otherwise. -/
theorem C4_star_spec_grading (t answer : Str) (w : ℚ) (c2 : Str)
    (hc2 : c2 = ('*' :: t).filter (fun x => !(x == '*'))) :
    (c2.length = 1 →
      grade_answer answer ('*' :: t) w =
        .ok (if answer = c2 then Grade.val w else Grade.nan)) ∧
    (c2.head? = some '[' ∧ c2.getLast? = some ']' →
      grade_answer answer ('*' :: t) w =
        .ok (if (stripBr c2).any (fun ch => answer == [ch]) then Grade.val w
             else Grade.nan)) := by
  have hex : extract_with_multiple ('*' :: t) = Extracted.str ('*' :: t) := by
    rw [extract_with_multiple, if_neg]
    rintro ⟨h1, _⟩
    simp at h1
  constructor
  · intro h1
    have htne : t ≠ [] := by
      intro h
      subst h
      rw [hc2] at h1
      simp [List.filter_cons] at h1
    have hne1 : ('*' :: t) ≠ ['*'] := by
      intro h
      apply htne
      simpa using h
    have hlen : ¬ ('*' :: t).length = 1 := by
      simp [htne]
    unfold grade_answer
    rw [hex]
    simp only []
    rw [if_neg hne1, if_neg hlen,
        if_pos (show ('*' :: t).head? = some '*' from rfl), ← hc2, if_pos h1,
        ← apply_ite Except.ok]
  · rintro ⟨hh, hl⟩
    have hc2ne : c2 ≠ [] := by
      intro h
      rw [h] at hh
      simp at hh
    have htne : t ≠ [] := by
      intro h
      subst h
      rw [hc2] at hc2ne
      simp [List.filter_cons] at hc2ne
    have hne1 : ('*' :: t) ≠ ['*'] := by
      intro h
      apply htne
      simpa using h
    have hlen : ¬ ('*' :: t).length = 1 := by
      simp [htne]
    have hlen1 : ¬ c2.length = 1 := by
      intro h
      obtain ⟨x, hx⟩ := List.length_eq_one.mp h
      rw [hx] at hh hl
      simp at hh hl
      subst hh
      simp at hl
    unfold grade_answer
    rw [hex]
    simp only []
    rw [← hc2, if_neg hne1, if_neg hlen,
        if_pos (show ('*' :: t).head? = some '*' from rfl), if_neg hlen1,
        if_pos (⟨hh, hl⟩ : c2.head? = some '[' ∧ c2.getLast? = some ']'),
        ← apply_ite Except.ok]

theorem C4_star_spec_grading_witness :
    (( "A".toList : Str).length = 1) ∧
    grade_answer ( "B".toList) ('*' :: "A".toList) 1 = .ok Grade.nan := by
  constructor
  · decide
  · have h := (C4_star_spec_grading ( "A".toList) ( "B".toList) 1
      ( "A".toList) (by decide)).1 (by decide)
    rw [if_neg (by decide)] at h
    exact h

/-- C5: on a graded response row the score field is 100 × (nan-aware credit
sum) / (weight sum of the non-nan questions), rounded to two decimal
digits, and the points field is that (unrounded) score fraction times the
sum of ALL the variant's weights — canceled ones included — rounded to two
decimal digits. -/
theorem C5_aggregation_formula (fcIdx startIdx : Nat) (cols : List Str) (ks : KeyDict)
    (exam : List Str) (fc : Str) (pairs : List (Str × ℚ)) (graded : List Grade)
    (row : ScoredRow)
    (hfc : exam[fcIdx]? = some fc)
    (hp : (if hasKey ks ['*'] then lookupLast ks ['*'] else lookupLast ks fc) = some pairs)
    (hne : pairs ≠ [])
    (hg : mapE (fun t => grade_answer t.1 t.2.1 t.2.2)
            ((exam.drop startIdx).zip ((pairs.map Prod.fst).zip (pairs.map Prod.snd))) =
          .ok graded)
    (hlen : graded.length = pairs.length)
    (hD : maskedWeightSum (pairs.map Prod.snd) graded ≠ 0)
    (hrow : scoreRow fcIdx startIdx cols ks exam = .ok row) :
    row.scoreField =
      .num (roundTo2 (100 * nansum graded / maskedWeightSum (pairs.map Prod.snd) graded)) ∧
    row.pointsField =
      .num (roundTo2 (nansum graded / maskedWeightSum (pairs.map Prod.snd) graded *
        (pairs.map Prod.snd).sum)) := by
  have hsne : ¬ (pairs.map Prod.snd = []) := by simp [hne]
  have hlen' : ¬ (graded.length ≠ (pairs.map Prod.snd).length) := by
    simp [hlen]
  have hrow2 : scoreRow fcIdx startIdx cols ks exam =
      .ok ⟨cols.zip (exam.take startIdx),
           .num (roundTo2 (nansum graded / maskedWeightSum (pairs.map Prod.snd) graded * 100)),
           .num (roundTo2 ((pairs.map Prod.snd).sum *
             (nansum graded / maskedWeightSum (pairs.map Prod.snd) graded))),
           graded⟩ := by
    unfold scoreRow
    rw [hfc]
    simp only []
    rw [hp]
    simp only []
    rw [if_neg hne, if_neg hsne, hg]
    simp only []
    rw [if_neg hlen', if_neg hD]
  rw [hrow2] at hrow
  cases hrow
  constructor
  · simp only []
    rw [div_mul_eq_mul_div, mul_comm]
  · simp only []
    rw [mul_comm]

theorem C5_aggregation_formula_witness :
    c5row.scoreField =
      .num (roundTo2 (100 * nansum [Grade.val 1, Grade.nan] /
        maskedWeightSum (c5pairs.map Prod.snd) [Grade.val 1, Grade.nan])) ∧
    c5row.pointsField =
      .num (roundTo2 (nansum [Grade.val 1, Grade.nan] /
        maskedWeightSum (c5pairs.map Prod.snd) [Grade.val 1, Grade.nan] *
        (c5pairs.map Prod.snd).sum)) :=
  C5_aggregation_formula 0 1 [ "form".toList] c5ks c5exam ( "FORM1".toList)
    c5pairs [Grade.val 1, Grade.nan] c5row (by decide) (by decide) (by decide)
    (by decide) (by decide) (by decide) (by decide)

/-- C6: grading any answer against the bare canceled specification `"*"`
returns the not-applicable `nan` sentinel whatever the answer and weight;
and in aggregation a canceled question contributes to neither the credit
numerator nor the weight denominator: appending a canceled question (and an
answer cell for it) to a key variant leaves the score field of the row
unchanged. -/
theorem C6_canceled_question :
    (∀ (answer : Str) (w : ℚ), grade_answer answer ['*'] w = .ok Grade.nan) ∧
    (∀ (fcIdx startIdx : Nat) (cols : List Str) (pairs : List (Str × ℚ)) (w : ℚ)
        (exam : List Str) (a fc : Str),
        exam[fcIdx]? = some fc →
        startIdx ≤ exam.length →
        pairs ≠ [] →
        (exam.drop startIdx).length = pairs.length →
        Except.map ScoredRow.scoreField
            (scoreRow fcIdx startIdx cols [(['*'], pairs ++ [(['*'], w)])] (exam ++ [a])) =
          Except.map ScoredRow.scoreField
            (scoreRow fcIdx startIdx cols [(['*'], pairs)] exam)) := by
  constructor
  · intro answer w
    exact grade_answer_star answer w
  · intro fcIdx startIdx cols pairs w exam a fc hfc hstart hne hlen
    have hlt : fcIdx < exam.length := by
      by_contra hcon
      push_neg at hcon
      rw [List.getElem?_eq_none hcon] at hfc
      cases hfc
    have hfc2 : (exam ++ [a])[fcIdx]? = some fc := by
      rw [List.getElem?_append_left hlt]
      exact hfc
    have hk1 : hasKey [(['*'], pairs ++ [(['*'], w)])] ['*'] = true := by simp [hasKey]
    have hk2 : hasKey [(['*'], pairs)] ['*'] = true := by simp [hasKey]
    have hl1 : lookupLast [(['*'], pairs ++ [(['*'], w)])] ['*'] =
        some (pairs ++ [(['*'], w)]) := by simp [lookupLast]
    have hl2 : lookupLast [(['*'], pairs)] ['*'] = some pairs := by simp [lookupLast]
    have hne2 : pairs ++ [(['*'], w)] ≠ [] := by simp
    have hs1 : ¬ ((pairs ++ [(['*'], w)]).map Prod.snd = []) := by simp
    have hs2 : ¬ (pairs.map Prod.snd = []) := by simp [hne]
    have hdrop : (exam ++ [a]).drop startIdx = exam.drop startIdx ++ [a] :=
      List.drop_append_of_le_length hstart
    have hzlen : (exam.drop startIdx).length = ((pairs.map Prod.fst).zip (pairs.map Prod.snd)).length := by
      rw [zip_fst_snd]
      exact hlen
    have hzip : ((exam ++ [a]).drop startIdx).zip
        (((pairs ++ [(['*'], w)]).map Prod.fst).zip ((pairs ++ [(['*'], w)]).map Prod.snd)) =
        (exam.drop startIdx).zip pairs ++ [(a, (['*'], w))] := by
      rw [hdrop, zip_fst_snd, List.zip_append hlen]
      rfl
    have hzip2 : (exam.drop startIdx).zip ((pairs.map Prod.fst).zip (pairs.map Prod.snd)) =
        (exam.drop startIdx).zip pairs := by
      rw [zip_fst_snd]
    have hone : mapE (fun (t : Str × Str × ℚ) => grade_answer t.1 t.2.1 t.2.2)
        [(a, (['*'], w))] = .ok [Grade.nan] := rfl
    unfold scoreRow
    rw [hfc, hfc2]
    simp only []
    rw [hk1, hk2]
    simp only [if_true]
    rw [hl1, hl2]
    simp only []
    rw [if_neg hne2, if_neg hne, if_neg hs1, if_neg hs2]
    rw [hzip, hzip2, mapE_append, hone]
    cases hg : mapE (fun (t : Str × Str × ℚ) => grade_answer t.1 t.2.1 t.2.2)
        ((exam.drop startIdx).zip pairs) with
    | error e => rfl
    | ok graded =>
      have hglen : graded.length = pairs.length := by
        have h1 := mapE_ok_length _ hg
        rw [h1, List.length_zip, hlen]
        exact Nat.min_self _
      have hlchk1 : ¬ ((graded ++ [Grade.nan]).length ≠ ((pairs ++ [(['*'], w)]).map Prod.snd).length) := by
        simp [hglen]
      have hlchk2 : ¬ (graded.length ≠ (pairs.map Prod.snd).length) := by
        simp [hglen]
      simp only []
      rw [if_neg hlchk2]
      have hmapsnd : (pairs ++ [(['*'], w)]).map Prod.snd = pairs.map Prod.snd ++ [w] := by
        simp
      rw [hmapsnd] at hlchk1
      rw [hmapsnd, if_neg hlchk1]
      have hmw : maskedWeightSum (pairs.map Prod.snd ++ [w]) (graded ++ [Grade.nan]) =
          maskedWeightSum (pairs.map Prod.snd) graded := by
        apply maskedWeightSum_append_nan
        simp [hglen]
      rw [hmw, nansum_append_nan]
      by_cases hD : maskedWeightSum (pairs.map Prod.snd) graded = 0
      · rw [if_pos hD, if_pos hD]
        rfl
      · rw [if_neg hD, if_neg hD]
        rfl

theorem C6_canceled_question_witness :
    grade_answer ( "D".toList) ['*'] 1 = .ok Grade.nan ∧
    Except.map ScoredRow.scoreField
        (scoreRow 0 1 [ "form".toList]
          [(['*'], [( "A".toList, (1:ℚ))] ++ [(['*'], (1:ℚ))])]
          ([ "FORM1".toList, "A".toList] ++ [ "D".toList])) =
      Except.map ScoredRow.scoreField
        (scoreRow 0 1 [ "form".toList] [(['*'], [( "A".toList, (1:ℚ))])]
          [ "FORM1".toList, "A".toList]) := by
  constructor
  · exact C6_canceled_question.1 ( "D".toList) 1
  · exact C6_canceled_question.2 0 1 [ "form".toList] [( "A".toList, (1:ℚ))] 1
      [ "FORM1".toList, "A".toList] ( "D".toList) ( "FORM1".toList)
      (by decide) (by decide) (by decide) (by decide)

/-- C7: a response row whose form code has no key entry, when no wildcard
key exists, is still emitted: its identifying fields are copied, both the
score and the points field carry the key-not-found sentinel, it has no
per-question graded values, and scoring continues with the remaining
rows. -/
theorem C7_key_not_found (fcIdx startIdx : Nat) (cols : List Str) (ks : KeyDict)
    (exam : List Str) (fc : Str) (rest : List (List Str))
    (hfc : exam[fcIdx]? = some fc)
    (hw : hasKey ks ['*'] = false)
    (hl : lookupLast ks fc = none) :
    scoreRow fcIdx startIdx cols ks exam =
      .ok ⟨cols.zip (exam.take startIdx), .keyNotFound, .keyNotFound, []⟩ ∧
    mapE (scoreRow fcIdx startIdx cols ks) (exam :: rest) =
      Except.map
        (fun out =>
          (⟨cols.zip (exam.take startIdx), .keyNotFound, .keyNotFound, []⟩ : ScoredRow) :: out)
        (mapE (scoreRow fcIdx startIdx cols ks) rest) := by
  have h1 : scoreRow fcIdx startIdx cols ks exam =
      .ok ⟨cols.zip (exam.take startIdx), .keyNotFound, .keyNotFound, []⟩ := by
    unfold scoreRow
    rw [hfc]
    simp only []
    rw [hw]
    simp only [Bool.false_eq_true, if_false]
    rw [hl]
  refine ⟨h1, ?_⟩
  rw [mapE_cons, h1]
  cases hrest : mapE (scoreRow fcIdx startIdx cols ks) rest with
  | error e => rfl
  | ok out => rfl

theorem C7_key_not_found_witness :
    hasKey c5ks ['*'] = false ∧
    scoreRow 0 1 [ "form".toList] c5ks [ "FORM9".toList, "A".toList, "X".toList] =
      .ok ⟨[ "form".toList].zip ([ "FORM9".toList, "A".toList, "X".toList].take 1),
           .keyNotFound, .keyNotFound, []⟩ :=
  ⟨by decide,
   (C7_key_not_found 0 1 [ "form".toList] c5ks
     [ "FORM9".toList, "A".toList, "X".toList] ( "FORM9".toList) []
     (by decide) (by decide) (by decide)).1⟩

/-- C8: when every question of the resolved key variant is canceled the
masked weight denominator is zero; the row is still scored without raising
— numpy's `0.0/0.0` is `nan`, not an exception — and the score field (and
points field) carry the well-defined nan sentinel. -/
theorem C8_all_canceled (fcIdx startIdx : Nat) (cols : List Str) (ks : KeyDict)
    (exam : List Str) (fc : Str) (pairs : List (Str × ℚ))
    (hfc : exam[fcIdx]? = some fc)
    (hp : (if hasKey ks ['*'] then lookupLast ks ['*'] else lookupLast ks fc) = some pairs)
    (hne : pairs ≠ [])
    (hall : ∀ p ∈ pairs, p.1 = ['*'])
    (hlen : pairs.length ≤ (exam.drop startIdx).length) :
    scoreRow fcIdx startIdx cols ks exam =
      .ok ⟨cols.zip (exam.take startIdx), .nanVal, .nanVal,
           List.replicate pairs.length Grade.nan⟩ := by
  unfold scoreRow
  rw [hfc]
  simp only []
  rw [hp]
  simp only []
  rw [if_neg hne]
  have hsne : ¬ (pairs.map Prod.snd = []) := by simp [hne]
  rw [if_neg hsne]
  rw [mapE_all_star pairs _ hall hlen]
  simp only []
  have hl2 : ¬ ((List.replicate pairs.length Grade.nan).length ≠ (pairs.map Prod.snd).length) := by
    simp
  rw [if_neg hl2]
  have hmask : maskedWeightSum (pairs.map Prod.snd) (List.replicate pairs.length Grade.nan) = 0 :=
    maskedWeightSum_all_nan _ _ (fun g hg => List.eq_of_mem_replicate hg)
  rw [if_pos hmask]

theorem C8_all_canceled_witness :
    ([(['*'], (1:ℚ)), (['*'], (2:ℚ))] : List (Str × ℚ)) ≠ [] ∧
    scoreRow 0 1 [ "form".toList] c8ks [ "FORM1".toList, "A".toList, "B".toList] =
      .ok ⟨[ "form".toList].zip ([ "FORM1".toList, "A".toList, "B".toList].take 1),
           .nanVal, .nanVal,
           List.replicate ([(['*'], (1:ℚ)), (['*'], (2:ℚ))] : List (Str × ℚ)).length Grade.nan⟩ :=
  ⟨by decide,
   C8_all_canceled 0 1 [ "form".toList] c8ks
     [ "FORM1".toList, "A".toList, "B".toList] ( "FORM1".toList)
     [(['*'], (1:ℚ)), (['*'], (2:ℚ))]
     (by decide) (by decide) (by decide) (by decide) (by decide)⟩

/-- C9: when the key dictionary holds a wildcard entry, a row is scored
exactly as it would be against a dictionary holding only that wildcard
entry — the row's own form code, even one with a matching non-wildcard
entry, plays no part. -/
theorem C9_wildcard_precedence (fcIdx startIdx : Nat) (cols : List Str)
    (ks : KeyDict) (exam : List Str) (wp : List (Str × ℚ))
    (hw : hasKey ks ['*'] = true)
    (hl : lookupLast ks ['*'] = some wp) :
    scoreRow fcIdx startIdx cols ks exam =
      scoreRow fcIdx startIdx cols [(['*'], wp)] exam := by
  have h2 : hasKey [(['*'], wp)] ['*'] = true := by simp [hasKey]
  have h3 : lookupLast [(['*'], wp)] ['*'] = some wp := by simp [lookupLast]
  simp only [scoreRow, hw, h2, hl, h3, if_true]

theorem C9_wildcard_precedence_witness :
    hasKey c9ks ['*'] = true ∧
    scoreRow 0 1 [ "form".toList] c9ks [ "FORM1".toList, "B".toList] =
      scoreRow 0 1 [ "form".toList] [(['*'], [( "B".toList, (2:ℚ))])]
        [ "FORM1".toList, "B".toList] :=
  ⟨by decide,
   C9_wildcard_precedence 0 1 [ "form".toList] c9ks [ "FORM1".toList, "B".toList]
     [( "B".toList, (2:ℚ))] (by decide) (by decide)⟩

theorem buildEntries_append (fcName : Str) (header : List Str) (start : Nat)
    (rows₁ rows₂ : List (List Str)) (ws₁ ws₂ : List (List ℚ))
    (h : ws₁.length = rows₁.length) :
    buildEntries fcName header start (rows₁ ++ rows₂) (ws₁ ++ ws₂) =
      match buildEntries fcName header start rows₁ ws₁ with
      | Except.error e => Except.error e
      | Except.ok d₁ =>
        match buildEntries fcName header start rows₂ ws₂ with
        | Except.error e => Except.error e
        | Except.ok d₂ => Except.ok (d₁ ++ d₂) := by
  induction rows₁ generalizing ws₁ with
  | nil =>
    cases ws₁ with
    | nil =>
      simp only [List.nil_append, buildEntries]
      cases buildEntries fcName header start rows₂ ws₂ with
      | error e => rfl
      | ok d₂ => rfl
    | cons w ws => simp at h
  | cons r rs ih =>
    cases ws₁ with
    | nil => simp at h
    | cons w ws =>
      simp only [List.cons_append, buildEntries, List.append_eq]
      rw [ih ws (by simpa using h)]
      cases hke : keyEntry fcName header start r w with
      | error e => rfl
      | ok e =>
        cases buildEntries fcName header start rs ws with
        | error e' => rfl
        | ok d₁ =>
          cases buildEntries fcName header start rows₂ ws₂ with
          | error e' => rfl
          | ok d₂ => rfl

theorem buildEntries_mem (fcName : Str) (header : List Str) (start : Nat)
    {rows : List (List Str)} {ws : List (List ℚ)} {d : KeyDict}
    (h : buildEntries fcName header start rows ws = .ok d) :
    ∀ e ∈ d, ∃ r ∈ rows, ∃ w, keyEntry fcName header start r w = .ok e := by
  induction rows generalizing ws d with
  | nil =>
    cases ws with
    | nil =>
      simp only [buildEntries] at h
      cases h
      intro e he
      simp at he
    | cons w ws =>
      simp only [buildEntries] at h
      cases h
      intro e he
      simp at he
  | cons r rs ih =>
    cases ws with
    | nil => simp only [buildEntries] at h; cases h
    | cons w ws =>
      simp only [buildEntries] at h
      cases hke : keyEntry fcName header start r w with
      | error e' => rw [hke] at h; cases h
      | ok e0 =>
        rw [hke] at h
        cases hrec : buildEntries fcName header start rs ws with
        | error e' => rw [hrec] at h; cases h
        | ok rest =>
          rw [hrec] at h
          cases h
          intro e he
          rcases List.mem_cons.mp he with he0 | herest
          · exact ⟨r, List.mem_cons_self r rs, w, by rw [hke, he0]⟩
          · obtain ⟨r', hr', w', hw'⟩ := ih hrec e herest
            exact ⟨r', List.mem_cons_of_mem _ hr', w', hw'⟩

theorem foldl_lookup_no_match {α : Type} (l : List (Str × α)) (k : Str) (acc : Option α)
    (h : ∀ e ∈ l, e.1 ≠ k) :
    l.foldl (fun acc p => if p.1 = k then some p.2 else acc) acc = acc := by
  induction l generalizing acc with
  | nil => rfl
  | cons e l ih =>
    simp only [List.foldl_cons]
    rw [if_neg (h e (List.mem_cons_self e l))]
    exact ih acc (fun e' he' => h e' (List.mem_cons_of_mem _ he'))

theorem lookupLast_middle {α : Type} (l₁ l₂ : List (Str × α)) (k : Str) (v : α)
    (h : ∀ e ∈ l₂, e.1 ≠ k) :
    lookupLast (l₁ ++ (k, v) :: l₂) k = some v := by
  unfold lookupLast
  rw [List.foldl_append]
  simp only [List.foldl_cons, if_pos]
  exact foldl_lookup_no_match l₂ k (some v) h

/-- C10: when two or more key rows share a form code, the dictionary maps
that code to the (spec, weight) pairs of the LAST such row in table order:
the dict comprehension silently overwrites earlier bindings. -/
theorem C10_duplicate_key_last_wins (fcName : Str) (header rowj : List Str)
    (pre post : List (List Str)) (wpre wpost : List (List ℚ)) (wj : List ℚ)
    (cols : List Str) (start : Nat) (d : KeyDict) (f : Str)
    (hwlen : wpre.length = pre.length)
    (hq1 : find_index header ( "Q1".toList) = some start)
    (hok : establish_key_dict fcName
      ⟨header :: (pre ++ rowj :: post), wpre ++ wj :: wpost, cols⟩ = .ok d)
    (hf : get_key_form_code fcName header rowj = .ok f)
    (_hdup : ∃ r ∈ pre, get_key_form_code fcName header r = .ok f)
    (hlast : ∀ r ∈ post, get_key_form_code fcName header r ≠ .ok f) :
    lookupLast d f = some ((rowj.drop start).zip wj) := by
  unfold establish_key_dict at hok
  simp only [hq1] at hok
  rw [buildEntries_append fcName header start pre (rowj :: post) wpre (wj :: wpost) hwlen] at hok
  cases h1 : buildEntries fcName header start pre wpre with
  | error e => rw [h1] at hok; cases hok
  | ok d₁ =>
    rw [h1] at hok
    have hke : keyEntry fcName header start rowj wj =
        .ok (f, (rowj.drop start).zip wj) := by
      unfold keyEntry
      rw [hf]
    simp only [buildEntries, hke] at hok
    cases h2 : buildEntries fcName header start post wpost with
    | error e => rw [h2] at hok; cases hok
    | ok d₂ =>
      rw [h2] at hok
      cases hok
      apply lookupLast_middle
      intro e he hef
      obtain ⟨r, hr, w', hw'⟩ := buildEntries_mem fcName header start h2 e he
      have hgr : get_key_form_code fcName header r = .ok e.1 := by
        unfold keyEntry at hw'
        cases hg : get_key_form_code fcName header r with
        | error er => rw [hg] at hw'; cases hw'
        | ok fc => rw [hg] at hw'; cases hw'; rfl
      exact hlast r hr (by rw [hgr, hef])

theorem C10_duplicate_key_last_wins_witness :
    establish_key_dict ( "form".toList)
      ⟨[[ "form".toList, "Q1".toList], [ "FORM1".toList, "A".toList],
        [ "FORM1".toList, "B".toList]], [[1], [1]], []⟩ = .ok c10d ∧
    lookupLast c10d ( "FORM1".toList) =
      some (([ "FORM1".toList, "B".toList].drop 1).zip [1]) := by
  constructor
  · decide
  · exact C10_duplicate_key_last_wins ( "form".toList)
      [ "form".toList, "Q1".toList] [ "FORM1".toList, "B".toList]
      [[ "FORM1".toList, "A".toList]] [] [[1]] [] [1] [] 1 c10d ( "FORM1".toList)
      (by decide) (by decide) (by decide) (by decide)
      ⟨[ "FORM1".toList, "A".toList], by decide, by decide⟩
      (by simp)

end OpenMCR
